import Mathlib

/-!
Shallow embedding of `hrms/hr/doctype/leave_policy_assignment/leave_policy_assignment.py`.

The repository code is business logic over the frappe framework.  Dates are
Python `datetime.date` values: we embed them as year/month/day triples with the
proleptic-Gregorian ordinal (`Date.toOrdinal`) used for day differences
(`frappe.utils.date_diff`), lexicographic comparison (Python date comparison),
`get_first_day`, `get_last_day` and `add_months` (dateutil month arithmetic
with day clamping).  `frappe.utils.flt(x, p)` rounds to `p` decimal digits with
round-half-to-even; we model it exactly over `ℚ`.  Python float arithmetic is
idealised as exact rational arithmetic.
-/

structure Date where
  year : Int
  month : Nat
  day : Nat
deriving DecidableEq, Repr

/-- Python `date` comparison is lexicographic on (year, month, day). -/
def Date.Le (a b : Date) : Prop :=
  a.year < b.year ∨ (a.year = b.year ∧ (a.month < b.month ∨ (a.month = b.month ∧ a.day ≤ b.day)))

def Date.Lt (a b : Date) : Prop :=
  a.year < b.year ∨ (a.year = b.year ∧ (a.month < b.month ∨ (a.month = b.month ∧ a.day < b.day)))

instance (a b : Date) : Decidable (Date.Le a b) := by
  unfold Date.Le; infer_instance

instance (a b : Date) : Decidable (Date.Lt a b) := by
  unfold Date.Lt; infer_instance

/-- Boolean date comparison `a <= b` (Python `<=` on dates). -/
def Date.ble (a b : Date) : Bool := decide (Date.Le a b)

/-- Boolean date comparison `a < b` (Python `<` on dates). -/
def Date.blt (a b : Date) : Bool := decide (Date.Lt a b)

def isLeapYear (y : Int) : Bool :=
  (y % 4 == 0 && y % 100 != 0) || (y % 400 == 0)

def daysInMonth (y : Int) (m : Nat) : Nat :=
  if m = 2 then (if isLeapYear y then 29 else 28)
  else if m = 4 ∨ m = 6 ∨ m = 9 ∨ m = 11 then 30
  else 31

/-- Days in year `y` strictly before month `m`. -/
def daysBeforeMonth (y : Int) (m : Nat) : Nat :=
  (List.range (m - 1)).foldl (fun acc i => acc + daysInMonth y (i + 1)) 0

/-- Proleptic Gregorian ordinal (day number), as used by Python date
subtraction; defined for years ≥ 1 which is the datetime.date domain. -/
def Date.toOrdinal (d : Date) : Int :=
  365 * (d.year - 1) + (d.year - 1).ediv 4 - (d.year - 1).ediv 100 + (d.year - 1).ediv 400
    + daysBeforeMonth d.year d.month + d.day

/-- Embeds `frappe.utils.date_diff(a, b)`: number of days from `b` to `a`. -/
def date_diff (a b : Date) : Int := a.toOrdinal - b.toOrdinal

/-- Embeds `frappe.utils.get_first_day`: first day of the date's month. -/
def get_first_day (d : Date) : Date := ⟨d.year, d.month, 1⟩

/-- Embeds `frappe.utils.get_last_day`: last day of the date's month. -/
def get_last_day (d : Date) : Date := ⟨d.year, d.month, daysInMonth d.year d.month⟩

/-- Embeds `frappe.utils.add_months` (dateutil relativedelta): shift by `n` months,
clamping the day to the target month's length. -/
def add_months (d : Date) (n : Int) : Date :=
  let t : Int := d.year * 12 + ((d.month : Int) - 1) + n
  let y := t.ediv 12
  let m := (t.emod 12).toNat + 1
  ⟨y, m, min d.day (daysInMonth y m)⟩

/-- Round to the nearest integer, ties to even (Python `round`, which is what
frappe's default "Banker's Rounding (legacy)" uses under `flt`). -/
def roundHalfEven (x : ℚ) : ℤ :=
  if x - (⌊x⌋ : ℚ) < 1 / 2 then ⌊x⌋
  else if 1 / 2 < x - (⌊x⌋ : ℚ) then ⌊x⌋ + 1
  else if ⌊x⌋ % 2 = 0 then ⌊x⌋ else ⌊x⌋ + 1

/-- Embeds `frappe.utils.flt(x, p)`: round `x` to `p` decimal digits. -/
def flt (x : ℚ) (p : ℕ) : ℚ := (roundHalfEven (x * 10 ^ p) : ℚ) / 10 ^ p

/-- Leave Type descriptor fields read by this module (`get_leave_type_details`).
`monthly_rate` stands for the external call
`hrms.hr.utils.get_monthly_earned_leave(q, earned_leave_frequency, rounding)`
with this leave type's frequency and rounding fields already fixed; that
function lives outside this doctype module and is an input here. -/
structure LeaveDetails where
  name : String
  is_lwp : Bool
  is_earned_leave : Bool
  is_compensatory : Bool
  is_carry_forward : Bool
  allocate_on_day : String
  monthly_rate : ℚ → ℚ

/-- The Leave Policy Assignment document fields used by the module. -/
structure Assignment where
  name : String
  employee : String
  leave_policy : String
  leave_period : String
  assignment_based_on : Option String
  effective_from : Date
  effective_to : Date
  carry_forward : Bool
  leaves_allocated : Bool

/-- Ambient framework state: the employee's joining date
(`frappe.db.get_value("Employee", ..., "date_of_joining")`), the resolved
current date (`frappe.flags.current_date or getdate()`), the System Settings
float precision and the precision of the `new_leaves_allocated` field. -/
structure Ctx where
  date_of_joining : Date
  current_date : Date
  float_precision : ℕ
  field_precision : ℕ

/-- Embeds `is_earned_leave_applicable_for_current_month(date_of_joining,
allocate_on_day)`.  Note the function reads `frappe.flags.current_date`
directly (the unclamped ambient date). -/
def is_earned_leave_applicable_for_current_month
    (current_date date_of_joining : Date) (allocate_on_day : String) : Bool :=
  (allocate_on_day == "Date of Joining" && date_of_joining.day ≤ current_date.day)
    || (allocate_on_day == "First Day" && (get_first_day current_date).ble current_date)
    || (allocate_on_day == "Last Day" && decide (current_date = get_last_day current_date))

/-- Embeds `LeavePolicyAssignment.get_leaves_for_passed_months`.  `current_date0` is
the ambient date (`frappe.flags.current_date or getdate()`); the function
clamps its local copy to `effective_to` but the allocate-on-day check reads the
ambient date again, unclamped. -/
def get_leaves_for_passed_months (effective_from effective_to : Date)
    (date_of_joining current_date0 : Date) (allocate_on_day : String)
    (monthly_rate : ℚ → ℚ) (new_leaves_allocated : ℚ) : ℚ :=
  let current_date := if effective_to.blt current_date0 then effective_to else current_date0
  let from_date := if effective_from.blt date_of_joining then date_of_joining else effective_from
  let applicable :=
    is_earned_leave_applicable_for_current_month current_date0 date_of_joining allocate_on_day
  let months_passed : ℤ :=
    if current_date.year = from_date.year ∧ from_date.month ≤ current_date.month then
      ((current_date.month : ℤ) - from_date.month) + (if applicable then 1 else 0)
    else if from_date.year < current_date.year then
      ((12 - (from_date.month : ℤ)) + current_date.month) + (if applicable then 1 else 0)
    else 0
  if 0 < months_passed then monthly_rate new_leaves_allocated * months_passed else 0

/-- Module-level `calculate_pro_rated_leaves` (float precision is the System
Settings value).  Python raises on a zero `complete_period`; here division by
zero yields 0 and every theorem's hypotheses keep `complete_period` positive. -/
def calculate_pro_rated_leaves (float_precision : ℕ) (leaves : ℚ)
    (date_of_joining period_start_date period_end_date : Date) : ℚ :=
  let actual_period := date_diff period_end_date date_of_joining + 1
  let complete_period := date_diff period_end_date period_start_date + 1
  flt (leaves * ((actual_period : ℚ) / (complete_period : ℚ))) float_precision

/-- The pro-ration period end chosen inside `get_pro_rated_leaves`: for earned
leave the last day of the current (or previous) month depending on the
allocate-on-day rule, otherwise the assignment's `effective_to`. -/
def pro_rata_period_end (leave_details : LeaveDetails)
    (date_of_joining current_date effective_to : Date) : Date :=
  if leave_details.is_earned_leave then
    if is_earned_leave_applicable_for_current_month
        current_date date_of_joining leave_details.allocate_on_day then
      get_last_day current_date
    else
      get_last_day (add_months current_date (-1))
  else effective_to

/-- Embeds `LeavePolicyAssignment.get_pro_rated_leaves`. -/
def get_pro_rated_leaves (self : Assignment) (ctx : Ctx)
    (date_of_joining : Date) (leave_details : LeaveDetails)
    (new_leaves_allocated : ℚ) : ℚ :=
  if new_leaves_allocated = 0 ∨ date_of_joining.ble self.effective_from then
    new_leaves_allocated
  else
    let period_end_date :=
      pro_rata_period_end leave_details date_of_joining ctx.current_date self.effective_to
    let q := calculate_pro_rated_leaves ctx.float_precision new_leaves_allocated
      date_of_joining self.effective_from period_end_date
    if leave_details.is_earned_leave then q else ((⌈q⌉ : ℤ) : ℚ)

/-- Embeds `LeavePolicyAssignment.get_new_leaves`. -/
def get_new_leaves (self : Assignment) (ctx : Ctx) (new_leaves_allocated : ℚ)
    (leave_details : LeaveDetails) (date_of_joining : Date) : ℚ :=
  let q :=
    if leave_details.is_compensatory then 0
    else if leave_details.is_earned_leave then
      if self.assignment_based_on = none then 0
      else
        get_leaves_for_passed_months self.effective_from self.effective_to
          date_of_joining ctx.current_date leave_details.allocate_on_day
          leave_details.monthly_rate new_leaves_allocated
    else new_leaves_allocated
  flt (get_pro_rated_leaves self ctx date_of_joining leave_details q) ctx.field_precision

/-- A Leave Allocation document as created by `create_leave_allocation`. -/
structure Allocation where
  employee : String
  leave_type : String
  from_date : Date
  to_date : Date
  new_leaves_allocated : ℚ
  leave_period : String
  leave_policy_assignment : String
  leave_policy : String
  carry_forward : Bool

/-- Embeds `LeavePolicyAssignment.create_leave_allocation` (the document constructed
and the quantity returned; persistence is external). -/
def create_leave_allocation (self : Assignment) (ctx : Ctx)
    (new_leaves_allocated : ℚ) (leave_details : LeaveDetails)
    (date_of_joining : Date) : Allocation × ℚ :=
  let carry_forward := if self.carry_forward ∧ ¬ leave_details.is_carry_forward then
    false else self.carry_forward
  let q := get_new_leaves self ctx new_leaves_allocated leave_details date_of_joining
  (⟨self.employee, leave_details.name, self.effective_from, self.effective_to, q,
    if self.assignment_based_on = some "Leave Policy" then self.leave_period else "",
    self.name, self.leave_policy, carry_forward⟩, q)

/-- Errors raised by this module: the overlap conflict thrown by
`validate_policy_assignment_overlap`, the "Leave already have been assigned"
error thrown by `grant_leave_alloc_for_employee`, and a generic validation
error raised by the framework when saving/submitting a document fails. -/
inductive HrmsError where
  | overlapConflict : HrmsError
  | alreadyAllocated : HrmsError
  | validationError : HrmsError
deriving DecidableEq, Repr

/-- The loop body of `grant_leave_alloc_for_employee`: walk the policy's
(leave_type, annual_allocation) rows, skip LWP types, create one allocation
per remaining type.  `submit_ok` models whether the framework's
`allocation.save(); allocation.submit()` succeeds; on failure the exception
propagates (the allocations already submitted persist).  Returns the
allocation store and the `leave_allocations` result map (leave type name to
quantity granted; the created document itself carries the identity). -/
def grant_loop (self : Assignment) (ctx : Ctx) (types : String → LeaveDetails)
    (submit_ok : Allocation → Bool) :
    List (String × ℚ) → List Allocation →
    List Allocation × Except HrmsError (List (String × ℚ))
  | [], allocs => (allocs, Except.ok [])
  | (leave_type, annual_allocation) :: rest, allocs =>
    let leave_details := types leave_type
    if leave_details.is_lwp then
      grant_loop self ctx types submit_ok rest allocs
    else
      let created := create_leave_allocation self ctx annual_allocation
        leave_details ctx.date_of_joining
      if submit_ok created.1 then
        match grant_loop self ctx types submit_ok rest (allocs ++ [created.1]) with
        | (st, Except.ok res) => (st, Except.ok ((leave_details.name, created.2) :: res))
        | (st, Except.error e) => (st, Except.error e)
      else (allocs, Except.error HrmsError.validationError)

/-- Embeds `LeavePolicyAssignment.grant_leave_alloc_for_employee`.  Returns the
updated assignment (the `leaves_allocated` flag is `db_set` only after the
loop finishes), the allocation store, and either the result map or the error
that aborted the operation. -/
def grant_leave_alloc_for_employee (self : Assignment) (ctx : Ctx)
    (types : String → LeaveDetails) (submit_ok : Allocation → Bool)
    (policy : List (String × ℚ)) (allocs : List Allocation) :
    (Assignment × List Allocation) × Except HrmsError (List (String × ℚ)) :=
  if self.leaves_allocated then ((self, allocs), Except.error HrmsError.alreadyAllocated)
  else
    match grant_loop self ctx types submit_ok policy allocs with
    | (st, Except.ok res) => (({ self with leaves_allocated := true }, st), Except.ok res)
    | (st, Except.error e) => ((self, st), Except.error e)

/-- A stored Leave Policy Assignment row as seen by the overlap query
(`frappe.get_all("Leave Policy Assignment", filters=...)`). -/
structure LPARecord where
  name : String
  employee : String
  docstatus : Nat
  effective_from : Date
  effective_to : Date

/-- The filter used by `validate_policy_assignment_overlap`: same employee,
different name, submitted (`docstatus = 1`), `effective_to >=
self.effective_from` and `effective_from <= self.effective_to`. -/
def assignment_overlap_filter (self : Assignment) (r : LPARecord) : Bool :=
  r.employee == self.employee && !(r.name == self.name) && r.docstatus == 1
    && self.effective_from.ble r.effective_to && r.effective_from.ble self.effective_to

/-- Embeds `LeavePolicyAssignment.validate_policy_assignment_overlap`: throws when the
filtered query returns any row. -/
def validate_policy_assignment_overlap (db : List LPARecord) (self : Assignment) :
    Except HrmsError Unit :=
  if (db.filter (assignment_overlap_filter self)).length ≠ 0 then
    Except.error HrmsError.overlapConflict
  else Except.ok ()

/-- Embeds `LeavePolicyAssignment.set_dates`: `leave_period_dates` are the Leave
Period's (from_date, to_date) fetched from the database, `date_of_joining` the
employee's joining date. -/
def set_dates (self : Assignment) (leave_period_dates : Date × Date)
    (date_of_joining : Date) : Assignment :=
  if self.assignment_based_on = some "Leave Period" then
    { self with effective_from := leave_period_dates.1,
                effective_to := leave_period_dates.2 }
  else if self.assignment_based_on = some "Joining Date" then
    { self with effective_from := date_of_joining }
  else self

/-- The shared payload of `create_assignment_for_multiple_employees`. -/
structure BulkData where
  assignment_based_on : Option String
  leave_policy : String
  effective_from : Option Date
  effective_to : Option Date
  leave_period : Option String
  carry_forward : Bool

/-- An assignment document as created by the bulk entry point; its framework
name is modelled by the employee id (one new document per employee), and
`docstatus` 1 records a successful submit. -/
structure AssignmentStub where
  name : String
  employee : String
  data : BulkData
  docstatus : Nat

/-- Embeds `create_assignment_for_multiple_employees(employees, data)`.  For
each employee a new assignment is filled from the shared data and saved.
`assignment.save()` runs the document's `validate()` — `set_dates`, the
overlap check, the carry-forward advisory — and sits *outside* the `try`
block, so a `ValidationError` raised there (e.g. an overlapping prior
submitted assignment) propagates uncaught and aborts the whole bulk call:
employees later in the list are never processed and no list is returned.
Only `assignment.submit()` is inside the `try`: a submit-time
`ValidationError` (e.g. while granting the allocations) skips that employee
and the loop continues.  `save_ok` and `submit_ok` model the two per-employee
validation outcomes.  Returns the saved documents (the aborting employee's
document is not saved) together with either `docs_name`, the identities of
the successfully submitted assignments, or the propagated error. -/
def create_assignment_for_multiple_employees (data : BulkData)
    (save_ok submit_ok : String → Bool) :
    List String → List AssignmentStub × Except HrmsError (List String)
  | [] => ([], Except.ok [])
  | employee :: rest =>
    if save_ok employee then
      let saved : AssignmentStub := ⟨employee, employee, data, 0⟩
      if submit_ok employee then
        let r := create_assignment_for_multiple_employees data save_ok submit_ok rest
        ({ saved with docstatus := 1 } :: r.1,
          Except.map (fun names => saved.name :: names) r.2)
      else
        let r := create_assignment_for_multiple_employees data save_ok submit_ok rest
        (saved :: r.1, r.2)
    else ([], Except.error HrmsError.validationError)

/-- min of two dates under Python date comparison. -/
def date_min (a b : Date) : Date := if a.ble b then a else b

/-- max of two dates under Python date comparison. -/
def date_max (a b : Date) : Date := if a.ble b then b else a

/-- States `MonthsPassedAllocation` exactly as the specification sentence states it:
the reference date is clamped to `effective_to` when later, `from_date =
max(join_date, effective_from)`, the three `months_passed` cases, and 1 added
whenever the allocate-on-day rule *evaluated against the (clamped) reference
date* indicates the current month is already earned. -/
def spec_leaves_for_passed_months (effective_from effective_to : Date)
    (date_of_joining reference_date0 : Date) (allocate_on_day : String)
    (monthly_rate : ℚ → ℚ) (q : ℚ) : ℚ :=
  let reference := date_min reference_date0 effective_to
  let from_date := date_max date_of_joining effective_from
  let base : ℤ :=
    if reference.year = from_date.year ∧ from_date.month ≤ reference.month then
      (reference.month : ℤ) - from_date.month
    else if from_date.year < reference.year then
      (12 - (from_date.month : ℤ)) + reference.month
    else 0
  let months_passed := base +
    (if is_earned_leave_applicable_for_current_month reference date_of_joining
        allocate_on_day then 1 else 0)
  if 0 < months_passed then monthly_rate q * months_passed else 0

/-- States `MonthsPassedAllocation` as amended: identical to the claim except that the
allocate-on-day rule is evaluated against the *unclamped* ambient current date,
and the +1 adjustment only applies in the two non-zero `months_passed` cases. -/
def amended_leaves_for_passed_months (effective_from effective_to : Date)
    (date_of_joining current_date0 : Date) (allocate_on_day : String)
    (monthly_rate : ℚ → ℚ) (q : ℚ) : ℚ :=
  let reference := date_min current_date0 effective_to
  let from_date := date_max date_of_joining effective_from
  let base : ℤ :=
    if reference.year = from_date.year ∧ from_date.month ≤ reference.month then
      (reference.month : ℤ) - from_date.month
    else if from_date.year < reference.year then
      (12 - (from_date.month : ℤ)) + reference.month
    else 0
  let in_window := (reference.year = from_date.year ∧ from_date.month ≤ reference.month)
    ∨ from_date.year < reference.year
  let months_passed := if in_window ∧ is_earned_leave_applicable_for_current_month
      current_date0 date_of_joining allocate_on_day = true then base + 1 else base
  if 0 < months_passed then monthly_rate q * months_passed else 0

/-- A concrete shared bulk-creation payload used by the C3 counterexample. -/
def demoBulkData : BulkData :=
  ⟨some "Leave Period", "P", some ⟨2023, 1, 1⟩, some ⟨2023, 12, 31⟩, some "LP-1", false⟩

/-- A concrete assignment used by witnesses: period 2023-01-01..2023-12-31. -/
def demoAssignment : Assignment :=
  ⟨"LPA-4", "EMP-4", "P", "", some "Leave Period", ⟨2023, 1, 1⟩, ⟨2023, 12, 31⟩, false, false⟩

/-- A concrete ambient context used by witnesses: joining 2023-01-01, current
date 2023-06-15, float precision 3, field precision 3. -/
def demoCtx : Ctx := ⟨⟨2023, 1, 1⟩, ⟨2023, 6, 15⟩, 3, 3⟩

/-- A concrete plain (non-earned, non-compensatory, non-LWP) leave type used by
witnesses. -/
def demoTypes : String → LeaveDetails :=
  fun _ => ⟨"CL", false, false, false, true, "First Day", fun q => q / 12⟩


theorem Date.ble_eq_not_blt (a b : Date) : a.ble b = !b.blt a := by
  rw [Date.ble, Date.blt, ← decide_not]
  exact decide_eq_decide.mpr (by unfold Date.Le Date.Lt; omega)

theorem roundHalfEven_ge (x : ℚ) : x - 1 / 2 ≤ (roundHalfEven x : ℚ) := by
  unfold roundHalfEven
  have h1 : (⌊x⌋ : ℚ) ≤ x := Int.floor_le x
  have h2 : x < ⌊x⌋ + 1 := Int.lt_floor_add_one x
  split_ifs with hf hg he <;> push_cast <;> linarith

theorem roundHalfEven_le (x : ℚ) : (roundHalfEven x : ℚ) ≤ x + 1 / 2 := by
  unfold roundHalfEven
  have h1 : (⌊x⌋ : ℚ) ≤ x := Int.floor_le x
  split_ifs with hf hg he <;> push_cast <;> linarith

theorem roundHalfEven_le_ceil (x : ℚ) : roundHalfEven x ≤ ⌈x⌉ := by
  unfold roundHalfEven
  have h1 : ⌊x⌋ ≤ ⌈x⌉ := Int.floor_le_ceil x
  have h2 : (⌊x⌋ : ℚ) ≤ x := Int.floor_le x
  split_ifs with hf hg he
  · exact h1
  · exact Int.lt_ceil.mpr (by linarith)
  · exact h1
  · exact Int.lt_ceil.mpr (by linarith)

theorem roundHalfEven_nonneg {x : ℚ} (h : 0 ≤ x) : 0 ≤ roundHalfEven x := by
  unfold roundHalfEven
  have h1 : 0 ≤ ⌊x⌋ := Int.floor_nonneg.mpr h
  split_ifs <;> omega

theorem roundHalfEven_intCast (n : ℤ) : roundHalfEven (n : ℚ) = n := by
  unfold roundHalfEven
  rw [Int.floor_intCast]
  norm_num

theorem flt_nonneg {x : ℚ} (p : ℕ) (h : 0 ≤ x) : 0 ≤ flt x p := by
  unfold flt
  have h1 : 0 ≤ roundHalfEven (x * 10 ^ p) :=
    roundHalfEven_nonneg (by positivity)
  positivity

theorem flt_intCast (n : ℤ) (p : ℕ) : flt (n : ℚ) p = n := by
  unfold flt
  have h : ((n : ℚ)) * 10 ^ p = ((n * 10 ^ p : ℤ) : ℚ) := by push_cast; ring
  rw [h, roundHalfEven_intCast]
  push_cast
  field_simp

theorem flt_le_ceil (x : ℚ) (p : ℕ) : flt x p ≤ (⌈x⌉ : ℚ) := by
  unfold flt
  have hp : (0 : ℚ) < 10 ^ p := by positivity
  have h1 : roundHalfEven (x * 10 ^ p) ≤ ⌈x * 10 ^ p⌉ := roundHalfEven_le_ceil _
  have h2 : ⌈x * 10 ^ p⌉ ≤ ⌈x⌉ * 10 ^ p := by
    apply Int.ceil_le.mpr
    push_cast
    have h3 : x ≤ (⌈x⌉ : ℚ) := Int.le_ceil x
    nlinarith
  rw [div_le_iff₀ hp]
  calc ((roundHalfEven (x * 10 ^ p) : ℚ)) ≤ ((⌈x * 10 ^ p⌉ : ℚ)) := by exact_mod_cast h1
    _ ≤ ((⌈x⌉ * 10 ^ p : ℤ) : ℚ) := by exact_mod_cast h2
    _ = (⌈x⌉ : ℚ) * 10 ^ p := by push_cast; ring

theorem flt_ge (x : ℚ) (p : ℕ) : x - 1 / (2 * 10 ^ p) ≤ flt x p := by
  unfold flt
  have hp : (0 : ℚ) < 10 ^ p := by positivity
  have h1 := roundHalfEven_ge (x * 10 ^ p)
  have hc : (1 / (2 * (10 : ℚ) ^ p)) * 10 ^ p = 1 / 2 := by field_simp; ring
  rw [le_div_iff₀ hp]
  linarith [h1, hc]

theorem flt_le_half (x : ℚ) (p : ℕ) : flt x p ≤ x + 1 / (2 * 10 ^ p) := by
  unfold flt
  have hp : (0 : ℚ) < 10 ^ p := by positivity
  have h1 := roundHalfEven_le (x * 10 ^ p)
  have hc : (1 / (2 * (10 : ℚ) ^ p)) * 10 ^ p = 1 / 2 := by field_simp; ring
  rw [div_le_iff₀ hp]
  linarith [h1, hc]

/-- C1 (counterexample): the claim evaluates the allocate-on-day rule against
the clamped reference date; the code evaluates it against the ambient current
date.  With period 2023-01-01..2023-12-31, join 2023-01-01, current date
2024-01-15 and a "Last Day" rule, the claim's formula credits 12 months (the
clamped reference 2023-12-31 is a month's last day) but the code credits 11
(2024-01-15 is not), with monthly rate `id` and annual quantity 1. -/
theorem spec_leaves_for_passed_months_counterexample :
    spec_leaves_for_passed_months ⟨2023, 1, 1⟩ ⟨2023, 12, 31⟩ ⟨2023, 1, 1⟩ ⟨2024, 1, 15⟩
      "Last Day" id 1 = 12
    ∧ get_leaves_for_passed_months ⟨2023, 1, 1⟩ ⟨2023, 12, 31⟩ ⟨2023, 1, 1⟩ ⟨2024, 1, 15⟩
      "Last Day" id 1 = 11 := by
  have happ1 : is_earned_leave_applicable_for_current_month ⟨2024, 1, 15⟩ ⟨2023, 1, 1⟩
      "Last Day" = false := by decide
  have happ2 : is_earned_leave_applicable_for_current_month ⟨2023, 12, 31⟩ ⟨2023, 1, 1⟩
      "Last Day" = true := by decide
  constructor <;>
    norm_num [spec_leaves_for_passed_months, get_leaves_for_passed_months, date_min, date_max,
      happ1, happ2, Date.blt, Date.ble, Date.Lt, Date.Le]

/-- C1 (amended): `get_leaves_for_passed_months` computes exactly the claimed
months-passed allocation, except that the allocate-on-day rule is evaluated
against the unclamped ambient current date and the +1 adjustment applies only
in the two cases with a non-trivial months formula. -/
theorem get_leaves_for_passed_months_amended
    (effective_from effective_to date_of_joining current_date0 : Date)
    (allocate_on_day : String) (monthly_rate : ℚ → ℚ) (q : ℚ) :
    get_leaves_for_passed_months effective_from effective_to date_of_joining
      current_date0 allocate_on_day monthly_rate q
      = amended_leaves_for_passed_months effective_from effective_to date_of_joining
          current_date0 allocate_on_day monthly_rate q := by
  unfold get_leaves_for_passed_months amended_leaves_for_passed_months date_min date_max
  rw [Date.ble_eq_not_blt current_date0 effective_to,
    Date.ble_eq_not_blt date_of_joining effective_from]
  cases h1 : Date.blt effective_to current_date0 <;>
    cases h2 : Date.blt effective_from date_of_joining <;>
    cases happ : is_earned_leave_applicable_for_current_month current_date0
      date_of_joining allocate_on_day <;>
    simp only [Bool.not_true, Bool.not_false, if_true, if_false, Bool.true_eq_false,
      Bool.false_eq_true, and_true, and_false] <;>
    split_ifs <;> first | rfl | omega | tauto | (congr 1; norm_num)

theorem intCeil_neg_floor (a : ℚ) : ⌈a⌉ = -⌊-a⌋ := by rw [Int.floor_neg, neg_neg]

/-- C2 (counterexample): pro-ration is not bounded by the input and can go
negative.  With period 2023-01-01..2023-12-31 and a plain (non-earned) leave
type: an employee joining 2024-02-01 (after the period end) gets a negative
quantity from input 24, and input 1/2 with join date 2023-07-01 is ceiled up
to 1, which exceeds the unprorated amount 1/2. -/
theorem get_pro_rated_leaves_counterexample :
    get_pro_rated_leaves
      ⟨"LPA-1", "EMP-1", "P", "", some "Leave Period", ⟨2023, 1, 1⟩, ⟨2023, 12, 31⟩, false, false⟩
      ⟨⟨2024, 2, 1⟩, ⟨2023, 7, 1⟩, 3, 2⟩ ⟨2024, 2, 1⟩
      ⟨"CL", false, false, false, true, "First Day", fun q => q / 12⟩ 24 < 0
    ∧ (1 / 2 : ℚ) < get_pro_rated_leaves
      ⟨"LPA-1", "EMP-1", "P", "", some "Leave Period", ⟨2023, 1, 1⟩, ⟨2023, 12, 31⟩, false, false⟩
      ⟨⟨2023, 7, 1⟩, ⟨2023, 7, 1⟩, 3, 2⟩ ⟨2023, 7, 1⟩
      ⟨"CL", false, false, false, true, "First Day", fun q => q / 12⟩ (1 / 2) := by
  constructor <;>
    norm_num [get_pro_rated_leaves, pro_rata_period_end, calculate_pro_rated_leaves, flt,
      roundHalfEven, intCeil_neg_floor, date_diff, Date.toOrdinal, daysBeforeMonth,
      daysInMonth, isLeapYear, Date.blt, Date.ble, Date.Lt, Date.Le, List.range,
      List.range.loop]

theorem calculate_pro_rated_leaves_bounds (p : ℕ) (q : ℚ) (doj start pe : Date)
    (hq : 0 ≤ q) (h1 : 0 ≤ date_diff doj start) (h2 : 0 ≤ date_diff pe doj) :
    0 ≤ calculate_pro_rated_leaves p q doj start pe
    ∧ calculate_pro_rated_leaves p q doj start pe ≤ (⌈q⌉ : ℚ) := by
  unfold calculate_pro_rated_leaves
  have hsplit : date_diff pe start = date_diff pe doj + date_diff doj start := by
    unfold date_diff; ring
  have hA : (0 : ℚ) < ((date_diff pe doj + 1 : ℤ) : ℚ) := by
    have : (0 : ℤ) < date_diff pe doj + 1 := by omega
    exact_mod_cast this
  have hC : (0 : ℚ) < ((date_diff pe start + 1 : ℤ) : ℚ) := by
    have : (0 : ℤ) < date_diff pe start + 1 := by omega
    exact_mod_cast this
  have hAC : ((date_diff pe doj + 1 : ℤ) : ℚ) ≤ ((date_diff pe start + 1 : ℤ) : ℚ) := by
    have : date_diff pe doj + 1 ≤ date_diff pe start + 1 := by omega
    exact_mod_cast this
  have hratio : ((date_diff pe doj + 1 : ℤ) : ℚ) / ((date_diff pe start + 1 : ℤ) : ℚ) ≤ 1 :=
    (div_le_one hC).mpr hAC
  have hratio0 : 0 ≤ ((date_diff pe doj + 1 : ℤ) : ℚ) / ((date_diff pe start + 1 : ℤ) : ℚ) :=
    div_nonneg hA.le hC.le
  have hx0 : 0 ≤ q * (((date_diff pe doj + 1 : ℤ) : ℚ) / ((date_diff pe start + 1 : ℤ) : ℚ)) :=
    mul_nonneg hq hratio0
  have hxq : q * (((date_diff pe doj + 1 : ℤ) : ℚ) / ((date_diff pe start + 1 : ℤ) : ℚ)) ≤ q := by
    nlinarith
  constructor
  · exact flt_nonneg _ (by push_cast at hx0 ⊢; exact hx0)
  · calc flt (q * (((date_diff pe doj + 1 : ℤ) : ℚ) / ((date_diff pe start + 1 : ℤ) : ℚ))) p
        ≤ ((⌈q * (((date_diff pe doj + 1 : ℤ) : ℚ) / ((date_diff pe start + 1 : ℤ) : ℚ))⌉ : ℤ) : ℚ) :=
          flt_le_ceil _ _
      _ ≤ ((⌈q⌉ : ℤ) : ℚ) := by exact_mod_cast Int.ceil_le_ceil hxq

/-- C2 (amended): for a nonnegative input quantity, whenever the join date
lies between the pro-ration period start and the pro-ration period end (in
day counts), the pro-rated result is nonnegative and never exceeds the
unprorated amount rounded up to the next whole unit. -/
theorem get_pro_rated_leaves_amended (self : Assignment) (ctx : Ctx)
    (date_of_joining : Date) (leave_details : LeaveDetails) (q : ℚ)
    (hq : 0 ≤ q)
    (hstart : 0 ≤ date_diff date_of_joining self.effective_from)
    (hend : 0 ≤ date_diff
      (pro_rata_period_end leave_details date_of_joining ctx.current_date self.effective_to)
      date_of_joining) :
    0 ≤ get_pro_rated_leaves self ctx date_of_joining leave_details q
    ∧ get_pro_rated_leaves self ctx date_of_joining leave_details q ≤ (⌈q⌉ : ℚ) := by
  unfold get_pro_rated_leaves
  by_cases h : q = 0 ∨ date_of_joining.ble self.effective_from = true
  · rw [if_pos h]
    exact ⟨hq, Int.le_ceil q⟩
  · rw [if_neg h]
    have hb := calculate_pro_rated_leaves_bounds ctx.float_precision q date_of_joining
      self.effective_from
      (pro_rata_period_end leave_details date_of_joining ctx.current_date self.effective_to)
      hq hstart hend
    by_cases he : leave_details.is_earned_leave = true
    · rw [if_pos he]
      exact hb
    · rw [if_neg he]
      refine ⟨by exact_mod_cast Int.ceil_nonneg hb.1, ?_⟩
      have : ⌈calculate_pro_rated_leaves ctx.float_precision q date_of_joining
          self.effective_from (pro_rata_period_end leave_details date_of_joining
            ctx.current_date self.effective_to)⌉ ≤ ⌈q⌉ := by
        apply Int.ceil_le.mpr
        exact hb.2
      exact_mod_cast this

/-- Witness for C2 (amended) at input 24, period 2023-01-01..2023-12-31, join
2023-07-01, non-earned type: hypotheses hold and the bounds follow. -/
theorem get_pro_rated_leaves_amended_witness :
    0 ≤ (24 : ℚ)
    ∧ 0 ≤ date_diff ⟨2023, 7, 1⟩
        (Assignment.effective_from ⟨"LPA-1", "EMP-1", "P", "", some "Leave Period",
          ⟨2023, 1, 1⟩, ⟨2023, 12, 31⟩, false, false⟩)
    ∧ 0 ≤ date_diff
        (pro_rata_period_end ⟨"CL", false, false, false, true, "First Day", fun q => q / 12⟩
          ⟨2023, 7, 1⟩ ⟨2023, 7, 1⟩ ⟨2023, 12, 31⟩) ⟨2023, 7, 1⟩
    ∧ (0 ≤ get_pro_rated_leaves
        ⟨"LPA-1", "EMP-1", "P", "", some "Leave Period", ⟨2023, 1, 1⟩, ⟨2023, 12, 31⟩, false, false⟩
        ⟨⟨2023, 7, 1⟩, ⟨2023, 7, 1⟩, 3, 2⟩ ⟨2023, 7, 1⟩
        ⟨"CL", false, false, false, true, "First Day", fun q => q / 12⟩ 24
      ∧ get_pro_rated_leaves
        ⟨"LPA-1", "EMP-1", "P", "", some "Leave Period", ⟨2023, 1, 1⟩, ⟨2023, 12, 31⟩, false, false⟩
        ⟨⟨2023, 7, 1⟩, ⟨2023, 7, 1⟩, 3, 2⟩ ⟨2023, 7, 1⟩
        ⟨"CL", false, false, false, true, "First Day", fun q => q / 12⟩ 24 ≤ ((⌈(24 : ℚ)⌉ : ℤ) : ℚ)) :=
  ⟨by norm_num, by decide, by decide,
    get_pro_rated_leaves_amended _ _ _ _ _ (by norm_num) (by decide) (by decide)⟩

/-- C3 (counterexample): three employees of which the middle one, EMP-B, has
an overlapping prior submitted assignment.  The overlap check runs in
`validate()` during `assignment.save()`, outside the `try` that wraps only
`submit()`, so the `ValidationError` propagates: the bulk call aborts with the
error instead of returning the two other identities, and EMP-C is never
processed — only EMP-A's assignment exists. -/
theorem create_assignment_for_multiple_employees_counterexample :
    (create_assignment_for_multiple_employees demoBulkData (fun e => !(e == "EMP-B"))
        (fun _ => true) ["EMP-A", "EMP-B", "EMP-C"]).2
      = Except.error HrmsError.validationError
    ∧ (create_assignment_for_multiple_employees demoBulkData (fun e => !(e == "EMP-B"))
        (fun _ => true) ["EMP-A", "EMP-B", "EMP-C"]).2
      ≠ Except.ok ["EMP-A", "EMP-C"]
    ∧ (create_assignment_for_multiple_employees demoBulkData (fun e => !(e == "EMP-B"))
        (fun _ => true) ["EMP-A", "EMP-B", "EMP-C"]).1
      = [⟨"EMP-A", "EMP-A", demoBulkData, 1⟩] := by
  refine ⟨rfl, ?_, rfl⟩
  intro h
  rw [show (create_assignment_for_multiple_employees demoBulkData (fun e => !(e == "EMP-B"))
      (fun _ => true) ["EMP-A", "EMP-B", "EMP-C"]).2
    = Except.error HrmsError.validationError from rfl] at h
  exact Except.noConfusion h

/-- C3 (amended): bulk creation processes the longest prefix of employees
whose save-time validation passes, saving one assignment each (submitted ones
with `docstatus` 1, submit-time validation failures kept as drafts and
silently skipped).  When every save succeeds, it returns exactly the
identities of the successfully submitted assignments, in order; when some
employee's save-time validation fails (e.g. an overlapping prior assignment),
the bulk call aborts with the propagated error, the failing employee and all
later ones are not processed, and no identity list is returned. -/
theorem create_assignment_for_multiple_employees_amended (data : BulkData)
    (save_ok submit_ok : String → Bool) (employees : List String) :
    (create_assignment_for_multiple_employees data save_ok submit_ok employees).1
      = (employees.takeWhile save_ok).map
          (fun e => ⟨e, e, data, if submit_ok e then 1 else 0⟩)
    ∧ (create_assignment_for_multiple_employees data save_ok submit_ok employees).2
      = (if employees.all save_ok then Except.ok (employees.filter submit_ok)
         else Except.error HrmsError.validationError) := by
  induction employees with
  | nil => exact ⟨rfl, rfl⟩
  | cons e rest ih =>
    unfold create_assignment_for_multiple_employees
    by_cases hs : save_ok e
    · by_cases ht : submit_ok e <;>
        by_cases ha : rest.all save_ok <;>
        simp [hs, ht, ha, ih.1, ih.2, Except.map, List.takeWhile_cons, List.filter_cons]
    · simp [hs, List.takeWhile_cons]

/-- C4: when the grant operation succeeds on an assignment whose
`leaves_allocated` flag is unset, the first invocation sets the flag; invoking
it again on the resulting assignment returns the AlreadyAllocated error and
leaves both the assignment and the allocation store unchanged (no duplicate
allocation records). -/
theorem grant_leave_alloc_idempotent (self : Assignment) (ctx : Ctx)
    (types : String → LeaveDetails) (submit_ok : Allocation → Bool)
    (policy : List (String × ℚ)) (allocs : List Allocation) (res : List (String × ℚ))
    (h0 : self.leaves_allocated = false)
    (h1 : (grant_leave_alloc_for_employee self ctx types submit_ok policy allocs).2
      = Except.ok res) :
    (grant_leave_alloc_for_employee self ctx types submit_ok policy allocs).1.1.leaves_allocated
      = true
    ∧ grant_leave_alloc_for_employee
        (grant_leave_alloc_for_employee self ctx types submit_ok policy allocs).1.1 ctx types
        submit_ok policy
        (grant_leave_alloc_for_employee self ctx types submit_ok policy allocs).1.2
      = (((grant_leave_alloc_for_employee self ctx types submit_ok policy allocs).1.1,
          (grant_leave_alloc_for_employee self ctx types submit_ok policy allocs).1.2),
         Except.error HrmsError.alreadyAllocated) := by
  rcases hl : grant_loop self ctx types submit_ok policy allocs with ⟨st, r⟩
  cases r with
  | error e =>
    exfalso
    unfold grant_leave_alloc_for_employee at h1
    rw [h0] at h1
    simp only [Bool.false_eq_true, if_false, hl] at h1
    exact Except.noConfusion h1
  | ok r =>
    have hfirst : grant_leave_alloc_for_employee self ctx types submit_ok policy allocs
        = (({ self with leaves_allocated := true }, st), Except.ok r) := by
      unfold grant_leave_alloc_for_employee
      rw [h0]
      simp only [Bool.false_eq_true, if_false, hl]
    rw [hfirst]
    exact ⟨rfl, rfl⟩

/-- Witness for C4: a one-leave-type policy on `demoAssignment` grants 10
leaves, and the re-invocation errors with AlreadyAllocated. -/
theorem grant_leave_alloc_idempotent_witness :
    demoAssignment.leaves_allocated = false
    ∧ (grant_leave_alloc_for_employee demoAssignment demoCtx demoTypes (fun _ => true)
        [("CL", 10)] []).2 = Except.ok [("CL", (10 : ℚ))]
    ∧ ((grant_leave_alloc_for_employee demoAssignment demoCtx demoTypes (fun _ => true)
          [("CL", 10)] []).1.1.leaves_allocated = true
      ∧ grant_leave_alloc_for_employee
          (grant_leave_alloc_for_employee demoAssignment demoCtx demoTypes (fun _ => true)
            [("CL", 10)] []).1.1 demoCtx demoTypes (fun _ => true) [("CL", 10)]
          (grant_leave_alloc_for_employee demoAssignment demoCtx demoTypes (fun _ => true)
            [("CL", 10)] []).1.2
        = (((grant_leave_alloc_for_employee demoAssignment demoCtx demoTypes (fun _ => true)
              [("CL", 10)] []).1.1,
            (grant_leave_alloc_for_employee demoAssignment demoCtx demoTypes (fun _ => true)
              [("CL", 10)] []).1.2),
           Except.error HrmsError.alreadyAllocated)) :=
  ⟨rfl,
    by norm_num [grant_leave_alloc_for_employee, grant_loop, create_leave_allocation,
      get_new_leaves, get_pro_rated_leaves, flt, roundHalfEven, Date.ble, Date.Le,
      demoAssignment, demoCtx, demoTypes],
    grant_leave_alloc_idempotent demoAssignment demoCtx demoTypes (fun _ => true)
      [("CL", 10)] [] [("CL", (10 : ℚ))] rfl
      (by norm_num [grant_leave_alloc_for_employee, grant_loop, create_leave_allocation,
        get_new_leaves, get_pro_rated_leaves, flt, roundHalfEven, Date.ble, Date.Le,
        demoAssignment, demoCtx, demoTypes])⟩

theorem grant_loop_ok_covers (self : Assignment) (ctx : Ctx) (types : String → LeaveDetails)
    (submit_ok : Allocation → Bool) :
    ∀ (l : List (String × ℚ)) (allocs st : List Allocation) (res : List (String × ℚ)),
    grant_loop self ctx types submit_ok l allocs = (st, Except.ok res) →
    (∀ a ∈ allocs, a ∈ st)
    ∧ ∀ p ∈ l, (types p.1).is_lwp = false → ∃ a ∈ st, a.leave_type = (types p.1).name := by
  intro l
  induction l with
  | nil =>
    intro allocs st res h
    unfold grant_loop at h
    cases h
    exact ⟨fun a ha => ha, by simp⟩
  | cons p rest ih =>
    intro allocs st res h
    rcases p with ⟨lt, q⟩
    unfold grant_loop at h
    by_cases hl : (types lt).is_lwp = true
    · rw [if_pos hl] at h
      rcases ih allocs st res h with ⟨hmono, hcov⟩
      refine ⟨hmono, ?_⟩
      intro p hp hplwp
      rcases List.mem_cons.mp hp with hp1 | hp2
      · rw [hp1] at hplwp
        simp only [hplwp] at hl
        exact absurd hl (by simp)
      · exact hcov p hp2 hplwp
    · rw [if_neg hl] at h
      by_cases hs : submit_ok (create_leave_allocation self ctx q (types lt)
          ctx.date_of_joining).1 = true
      · rw [if_pos hs] at h
        rcases hrec : grant_loop self ctx types submit_ok rest
            (allocs ++ [(create_leave_allocation self ctx q (types lt) ctx.date_of_joining).1])
          with ⟨st1, r1⟩
        rw [hrec] at h
        cases r1 with
        | error e => exact absurd h (by simp)
        | ok r =>
          simp only at h
          have hst : st1 = st := by cases h; rfl
          rcases ih _ st1 r hrec with ⟨hmono, hcov⟩
          rw [hst] at hmono hcov
          refine ⟨fun a ha => hmono a (List.mem_append_left _ ha), ?_⟩
          intro p hp hplwp
          rcases List.mem_cons.mp hp with hp1 | hp2
          · refine ⟨(create_leave_allocation self ctx q (types lt) ctx.date_of_joining).1,
              hmono _ (List.mem_append_right _ (List.mem_singleton.mpr rfl)), ?_⟩
            rw [hp1]
            rfl
          · exact hcov p hp2 hplwp
      · rw [if_neg hs] at h
        exact absurd h (by simp)

/-- C10: starting from an assignment whose flag is unset, if any allocation's
creation/submission fails the grant operation ends in an error and the
`leaves_allocated` flag is still unset; when it succeeds, the flag is set and
the final store holds an allocation for every non-LWP leave type of the
policy. -/
theorem grant_flag_set_only_after_all_allocations (self : Assignment) (ctx : Ctx)
    (types : String → LeaveDetails) (submit_ok : Allocation → Bool)
    (policy : List (String × ℚ)) (allocs : List Allocation)
    (h0 : self.leaves_allocated = false) :
    (∀ e, (grant_leave_alloc_for_employee self ctx types submit_ok policy allocs).2
        = Except.error e →
      (grant_leave_alloc_for_employee self ctx types submit_ok policy allocs).1.1.leaves_allocated
        = false)
    ∧ ∀ res, (grant_leave_alloc_for_employee self ctx types submit_ok policy allocs).2
        = Except.ok res →
      (grant_leave_alloc_for_employee self ctx types submit_ok policy allocs).1.1.leaves_allocated
        = true
      ∧ ∀ p ∈ policy, (types p.1).is_lwp = false →
          ∃ a ∈ (grant_leave_alloc_for_employee self ctx types submit_ok policy allocs).1.2,
            a.leave_type = (types p.1).name := by
  rcases hl : grant_loop self ctx types submit_ok policy allocs with ⟨st, r⟩
  cases r with
  | error e =>
    have hg : grant_leave_alloc_for_employee self ctx types submit_ok policy allocs
        = ((self, st), Except.error e) := by
      unfold grant_leave_alloc_for_employee
      rw [h0]
      simp only [Bool.false_eq_true, if_false, hl]
    rw [hg]
    exact ⟨fun e1 _ => h0, fun res hres => absurd hres (by simp)⟩
  | ok r =>
    have hg : grant_leave_alloc_for_employee self ctx types submit_ok policy allocs
        = (({ self with leaves_allocated := true }, st), Except.ok r) := by
      unfold grant_leave_alloc_for_employee
      rw [h0]
      simp only [Bool.false_eq_true, if_false, hl]
    rw [hg]
    refine ⟨fun e1 he => absurd he (by simp), fun res hres => ⟨rfl, ?_⟩⟩
    exact (grant_loop_ok_covers self ctx types submit_ok policy allocs st r hl).2

/-- Witness for C10: with a failing submit the grant ends in a validation
error and the flag stays unset. -/
theorem grant_flag_set_only_after_all_allocations_witness :
    demoAssignment.leaves_allocated = false
    ∧ (grant_leave_alloc_for_employee demoAssignment demoCtx demoTypes (fun _ => false)
        [("CL", 10)] []).2 = Except.error HrmsError.validationError
    ∧ (grant_leave_alloc_for_employee demoAssignment demoCtx demoTypes (fun _ => false)
        [("CL", 10)] []).1.1.leaves_allocated = false :=
  ⟨rfl,
    by norm_num [grant_leave_alloc_for_employee, grant_loop, create_leave_allocation,
      get_new_leaves, get_pro_rated_leaves, flt, roundHalfEven, Date.ble, Date.Le,
      demoAssignment, demoCtx, demoTypes],
    (grant_flag_set_only_after_all_allocations demoAssignment demoCtx demoTypes
        (fun _ => false) [("CL", 10)] [] rfl).1 HrmsError.validationError
      (by norm_num [grant_leave_alloc_for_employee, grant_loop, create_leave_allocation,
        get_new_leaves, get_pro_rated_leaves, flt, roundHalfEven, Date.ble, Date.Le,
        demoAssignment, demoCtx, demoTypes])⟩

theorem assignment_overlap_filter_eq (self : Assignment) (r : LPARecord) :
    assignment_overlap_filter self r = true
    ↔ r.employee = self.employee ∧ r.name ≠ self.name ∧ r.docstatus = 1
      ∧ Date.Le self.effective_from r.effective_to
      ∧ Date.Le r.effective_from self.effective_to := by
  unfold assignment_overlap_filter
  simp [Date.ble, and_assoc]

/-- C5: the overlap validator rejects with a Conflict error exactly when some
other assignment row for the same employee — a different document name, with
submitted docstatus — has `effective_to` on/after the candidate's
`effective_from` and `effective_from` on/before the candidate's
`effective_to`; otherwise it passes. -/
theorem validate_policy_assignment_overlap_iff (db : List LPARecord) (self : Assignment) :
    validate_policy_assignment_overlap db self = Except.error HrmsError.overlapConflict
    ↔ ∃ r ∈ db, r.employee = self.employee ∧ r.name ≠ self.name ∧ r.docstatus = 1
        ∧ Date.Le self.effective_from r.effective_to
        ∧ Date.Le r.effective_from self.effective_to := by
  unfold validate_policy_assignment_overlap
  split_ifs with hc
  · constructor
    · intro _
      have hne : db.filter (assignment_overlap_filter self) ≠ [] := by
        intro hnil
        rw [hnil] at hc
        exact hc rfl
      rcases List.exists_mem_of_ne_nil _ hne with ⟨r, hr⟩
      have hm := List.mem_filter.mp hr
      exact ⟨r, hm.1, (assignment_overlap_filter_eq self r).mp hm.2⟩
    · intro _
      rfl
  · constructor
    · intro h
      exact absurd h (by simp)
    · rintro ⟨r, hrdb, hprops⟩
      exfalso
      apply hc
      have : r ∈ db.filter (assignment_overlap_filter self) :=
        List.mem_filter.mpr ⟨hrdb, (assignment_overlap_filter_eq self r).mpr hprops⟩
      have hlen : 0 < (db.filter (assignment_overlap_filter self)).length :=
        List.length_pos.mpr (List.ne_nil_of_mem this)
      omega

/-- C6: a non-earned leave type with annual allocation 24 on period
2023-01-01..2023-12-31 and join date 2023-07-01 yields
ceiling(24 x 184/365) = 13, for any System Settings float precision of at
least one digit and any field precision. -/
theorem get_new_leaves_mid_year_join_pro_rated (p p2 : ℕ) (hp : 1 ≤ p) (cd : Date)
    (nm aod : String) (lwp cf : Bool) (rate : ℚ → ℚ) :
    get_new_leaves
      ⟨"LPA-6", "EMP-6", "P", "", some "Leave Period", ⟨2023, 1, 1⟩, ⟨2023, 12, 31⟩, false, false⟩
      ⟨⟨2023, 7, 1⟩, cd, p, p2⟩ 24 ⟨nm, lwp, false, false, cf, aod, rate⟩ ⟨2023, 7, 1⟩ = 13 := by
  have h10 : (10 : ℚ) ≤ 10 ^ p := by
    calc (10 : ℚ) = 10 ^ 1 := by norm_num
      _ ≤ 10 ^ p := by exact pow_le_pow_right₀ (by norm_num) hp
  have hp2 : (20 : ℚ) ≤ 2 * 10 ^ p := by linarith
  have hfrac : 1 / (2 * (10 : ℚ) ^ p) ≤ 1 / 20 :=
    one_div_le_one_div_of_le (by norm_num) hp2
  have hfrac0 : 0 < 1 / (2 * (10 : ℚ) ^ p) := by positivity
  have hlow : (12 : ℚ) < flt (4416 / 365) p := by
    have hge := flt_ge ((4416 : ℚ) / 365) p
    have hx : (12 : ℚ) + 1 / 20 < (4416 : ℚ) / 365 := by norm_num
    linarith
  have hhigh : flt ((4416 : ℚ) / 365) p ≤ 13 := by
    have hle := flt_le_half ((4416 : ℚ) / 365) p
    have hx : (4416 : ℚ) / 365 + 1 / 20 < 13 := by norm_num
    linarith
  have hceil : ⌈flt ((4416 : ℚ) / 365) p⌉ = (13 : ℤ) := by
    rw [Int.ceil_eq_iff]
    constructor
    · push_cast
      linarith
    · push_cast
      exact hhigh
  have hd1 : date_diff ⟨2023, 12, 31⟩ ⟨2023, 7, 1⟩ = 183 := by decide
  have hd2 : date_diff ⟨2023, 12, 31⟩ ⟨2023, 1, 1⟩ = 364 := by decide
  norm_num [get_new_leaves, get_pro_rated_leaves, pro_rata_period_end,
    calculate_pro_rated_leaves, Date.ble, Date.Le, hd1, hd2, hceil]
  exact_mod_cast flt_intCast 13 p2

/-- Witness for C6 at float precision 3 and field precision 3. -/
theorem get_new_leaves_mid_year_join_pro_rated_witness :
    1 ≤ 3
    ∧ get_new_leaves
      ⟨"LPA-6", "EMP-6", "P", "", some "Leave Period", ⟨2023, 1, 1⟩, ⟨2023, 12, 31⟩, false, false⟩
      ⟨⟨2023, 7, 1⟩, ⟨2023, 6, 15⟩, 3, 3⟩ 24
      ⟨"CL", false, false, false, true, "First Day", fun q => q / 12⟩ ⟨2023, 7, 1⟩ = 13 :=
  ⟨by norm_num,
    get_new_leaves_mid_year_join_pro_rated 3 3 (by norm_num) ⟨2023, 6, 15⟩ "CL" "First Day"
      false true (fun q => q / 12)⟩

theorem flt_zero (p : ℕ) : flt 0 p = 0 := by
  have h := flt_intCast 0 p
  norm_num at h
  exact h

/-- C7: a compensatory leave type always receives 0 at assignment time,
whatever the annual allocation, dates, precisions and remaining flags. -/
theorem get_new_leaves_compensatory_zero (self : Assignment) (ctx : Ctx) (q : ℚ)
    (doj : Date) (nm aod : String) (lwp earned cf : Bool) (rate : ℚ → ℚ) :
    get_new_leaves self ctx q ⟨nm, lwp, earned, true, cf, aod, rate⟩ doj = 0 := by
  norm_num [get_new_leaves, get_pro_rated_leaves, flt_zero]

/-- C8: with an undefined basis `set_dates` changes nothing; with basis
"Joining Date" it writes only `effective_from` (the joining date) and leaves
`effective_to` untouched. -/
theorem set_dates_frame (self : Assignment) (lp : Date × Date) (doj : Date) :
    set_dates { self with assignment_based_on := none } lp doj
      = { self with assignment_based_on := none }
    ∧ set_dates { self with assignment_based_on := some "Joining Date" } lp doj
      = { self with assignment_based_on := some "Joining Date", effective_from := doj } := by
  constructor <;> simp [set_dates]

/-- C9: the created Leave Allocation's `leave_period` is empty unless the
assignment basis is the string "Leave Policy"; in particular it is empty for
both permissible bases "Leave Period" and "Joining Date" even when the
assignment carries a leave period reference. -/
theorem create_leave_allocation_leave_period (self : Assignment) (ctx : Ctx)
    (q : ℚ) (ld : LeaveDetails) (doj : Date) :
    (create_leave_allocation self ctx q ld doj).1.leave_period
      = (if self.assignment_based_on = some "Leave Policy" then self.leave_period else "")
    ∧ (create_leave_allocation { self with assignment_based_on := some "Leave Period" }
        ctx q ld doj).1.leave_period = ""
    ∧ (create_leave_allocation { self with assignment_based_on := some "Joining Date" }
        ctx q ld doj).1.leave_period = "" := by
  refine ⟨rfl, ?_, ?_⟩ <;> simp [create_leave_allocation]
